import Mathlib

/-
Verification development for the Fiji cache engine (src/fiji.js).

Fiji is a write-through, TTL-based caching layer over two browser storages:
sessionStorage (short retention) and localStorage (long retention).  Each
backend persists a single JSON blob under the configured namespace, mapping
keys to entry records.  The engine keeps an in-memory index (`_cache`) of
entries and consults the backends on miss or staleness.

Shallow-embedding conventions:
  - Time is an explicit `now : Int` parameter (JS `new Date()` millisecond
    value); within a single public operation all `new Date()` calls are
    modelled as the same instant.
  - JS values passed by users are modelled by `JVal` (serializable values;
    `null` included).  The JS `undefined` value is not modelled: user calls
    that omit arguments are out of the modelled call shapes, and internally
    constructed items always have all four fields defined, so the source's
    `validateItem` holds of every typed `Item` and fails exactly on the
    absent/malformed cases carried by `Rec` below.
  - A backend blob cell may hold a well-formed record (`Rec.goodR`), a
    truthy but malformed record (`Rec.badT`, e.g. `{}`), or a falsy cell
    (`Rec.badF`, e.g. a stored `null`): downstream code only observes
    truthiness and `validateItem`, which these three cases determine.
  - A stored namespace blob either deserializes (`Stored.blob`) or makes
    `JSON.parse` throw (`Stored.corrupt`); an absent blob is `none` and
    parses to JS `null`.
  - JS exceptions are modelled by threading `State × Option Err` (mutations
    performed before the throw persist, as they do for the JS caller).
  - The engine touches each storage only at the single namespace key, so a
    storage is modelled as the content of that one slot.
-/

deriving instance DecidableEq for Except

namespace Fiji

/-- Serializable JS values (the payloads users store). -/
inductive JVal where
  | null
  | bool (b : Bool)
  | num (n : Int)
  | str (s : String)
deriving DecidableEq

/-- A cache/storage item: the four fields built by `createNewItem`.
`expires` is the millisecond value of the JS `Date`. -/
structure Item where
  id : String
  value : JVal
  expires : Int
  isLongTerm : Bool
deriving DecidableEq

/-- A record stored in a backend blob cell: well-formed, truthy-but-malformed
(fails `validateItem`), or falsy junk (also fails `validateItem`, and is
falsy when tested). -/
inductive Rec where
  | goodR (it : Item)
  | badT
  | badF
deriving DecidableEq

/-- A deserialized namespace blob: a JS object mapping keys to records,
modelled as an association list. -/
abbrev Blob := List (String × Rec)

/-- What a storage holds under the namespace key once present: a blob that
deserializes, or a string on which `JSON.parse` throws. -/
inductive Stored where
  | blob (b : Blob)
  | corrupt
deriving DecidableEq

/-- Engine options: `ttl` is the short TTL (`_options.ttl`), `longTtl` the
long one. -/
structure Options where
  ttl : Int
  longTtl : Int
deriving DecidableEq

/-- Engine state: the in-memory index `_cache` plus the contents of the two
storages at the namespace key (`none` = absent). -/
structure State where
  cache : List (String × Item)
  locSto : Option Stored
  sesSto : Option Stored
deriving DecidableEq

/-- JS exceptions the engine can raise: `typeErr` for a property access or
assignment on `null`/`undefined`, `parseErr` for `JSON.parse` failure. -/
inductive Err where
  | typeErr
  | parseErr
deriving DecidableEq

/-- Association-list lookup (JS property read `obj[k]`, `undefined` ↦ `none`). -/
def alookup (k : String) : List (String × α) → Option α
  | [] => none
  | (j, v) :: t => if j = k then some v else alookup k t

/-- Association-list update (JS property write `obj[k] = v`). -/
def aset (k : String) (v : α) : List (String × α) → List (String × α)
  | [] => [(k, v)]
  | (j, w) :: t => if j = k then (k, v) :: t else (j, w) :: aset k v t

/-- Association-list removal (JS `delete obj[k]`). -/
def aerase (k : String) : List (String × α) → List (String × α)
  | [] => []
  | (j, w) :: t => if j = k then aerase k t else (j, w) :: aerase k t

/-- validateItem on a cache slot: `_cache[key]` is either `undefined`
(ill-formed) or a typed `Item`, whose four fields are always defined. -/
def validateItem : Option Item → Bool
  | some _ => true
  | none => false

/-- validateItem on a backend record. -/
def validateRec : Rec → Bool
  | .goodR _ => true
  | _ => false

/-- calculateExpiresDate: `new Date(now.valueOf() + (ttl || _options.ttl))`.
In the integer model only `0` is falsy, so a zero `ttl` argument falls back
to `_options.ttl`. -/
def calculateExpiresDate (o : Options) (ttl now : Int) : Int :=
  now + (if ttl = 0 then o.ttl else ttl)

/-- createNewItem: builds a well-formed item.  Note the TTL choice
`isLongTerm ? _options.ttl : _options.longTtl` (source line 102). -/
def createNewItem (o : Options) (now : Int) (key : String) (value : JVal)
    (isLongTerm : Bool) : Item :=
  { id := key
    value := value
    expires := calculateExpiresDate o (if isLongTerm then o.ttl else o.longTtl) now
    isLongTerm := isLongTerm }

/-- getCacheItem: empty key returns `undefined` (modelled `none`); otherwise
the cache slot, validated (a typed `Item` always validates). -/
def getCacheItem (s : State) (key : String) : Option Item :=
  if key = "" then none else alookup key s.cache

/-- setCacheItem: `_cache[item.id] = item` (the item always validates). -/
def setCacheItem (s : State) (item : Item) : State :=
  { s with cache := aset item.id item s.cache }

/-- deleteCacheItem: remove the slot when defined; empty key is a no-op. -/
def deleteCacheItem (s : State) (key : String) : State :=
  if key = "" then s else { s with cache := aerase key s.cache }

/-- Select a storage by retention class: localStorage for long-term,
sessionStorage otherwise. -/
def storeOf (s : State) (long : Bool) : Option Stored :=
  if long then s.locSto else s.sesSto

/-- Write a storage slot selected by retention class. -/
def setStoreOf (s : State) (long : Bool) (v : Option Stored) : State :=
  if long then { s with locSto := v } else { s with sesSto := v }

/-- `JSON.parse(storeMechanism.getItem(ns))`: absent ↦ JS `null` (`ok none`),
corrupt ↦ throws, otherwise the deserialized blob. -/
def parseStore : Option Stored → Except Err (Option Blob)
  | none => .ok none
  | some .corrupt => .error .parseErr
  | some (.blob b) => .ok (some b)

/-- Result of `getStoreItem` as observed by `get`: a falsy value
(`undefined`/`null`/falsy cell), a truthy malformed record, or a
well-formed item. -/
inductive SG where
  | falsy
  | badT
  | goodG (it : Item)
deriving DecidableEq

/-- getStoreItem (source lines 160-179): empty key returns `undefined`;
mechanism is localStorage iff the cached item validates and is long-term,
else sessionStorage; an absent blob yields `null`; a corrupt blob throws;
otherwise the record at `key` (absent ↦ `null`). -/
def getStoreItem (s : State) (key : String) : Except Err SG :=
  if key = "" then .ok .falsy
  else
    let long := match alookup key s.cache with
      | some it => it.isLongTerm
      | none => false
    match parseStore (storeOf s long) with
    | .error e => .error e
    | .ok none => .ok .falsy
    | .ok (some b) =>
      match alookup key b with
      | none => .ok .falsy
      | some (.goodR it) => .ok (.goodG it)
      | some .badT => .ok .badT
      | some .badF => .ok .falsy

/-- setStoreItem (source lines 186-201): a typed item always validates;
an absent blob is replaced by `{}`; a corrupt blob makes `JSON.parse`
throw before any mutation; otherwise merge under `item.id` and write
back the whole blob. -/
def setStoreItem (s : State) (item : Item) : State × Option Err :=
  match parseStore (storeOf s item.isLongTerm) with
  | .error e => (s, some e)
  | .ok ob =>
    (setStoreOf s item.isLongTerm (some (.blob (aset item.id (.goodR item) (ob.getD [])))), none)

/-- deleteStoreItem (source lines 208-228): empty key or an invalid cache
slot returns early; a corrupt blob makes `JSON.parse` throw; an absent blob
parses to `null` and the subsequent `storeObj[item.id] = null` throws a
TypeError; otherwise remove `item.id` and write back. -/
def deleteStoreItem (s : State) (key : String) : State × Option Err :=
  if key = "" then (s, none)
  else
    match alookup key s.cache with
    | none => (s, none)
    | some item =>
      match parseStore (storeOf s item.isLongTerm) with
      | .error e => (s, some e)
      | .ok none => (s, some .typeErr)
      | .ok (some b) =>
        (setStoreOf s item.isLongTerm (some (.blob (aerase item.id b))), none)

/-- isExpired: `new Date(item.expires.valueOf()) < now` (strict). -/
def isExpired (now : Int) (item : Item) : Bool :=
  item.expires < now

/-- get (source lines 253-301).  Cache miss: prime from storage, synthesizing
`createNewItem(key, null)` when the stored value is falsy; `setCacheItem`
rejects a malformed record, so the re-read `getCacheItem(key)` can be
`null`/`undefined`, and the final `item.value` then throws a TypeError.
Stale hit: overwrite `value` from a well-formed stored record, recompute
`expires` with `item.isLongTerm ? _options.ttl : _options.longTtl`, persist
to storage and cache.  The cached object is mutated in place, so the slot at
`key` is updated before `setCacheItem` re-inserts it under `item.id`.
Fresh hit: no state change. -/
def get (o : Options) (now : Int) (key : String) (s : State) :
    State × Except Err JVal :=
  match getCacheItem s key with
  | none =>
    match getStoreItem s key with
    | .error e => (s, .error e)
    | .ok sg =>
      let sg2 := match sg with
        | .falsy => SG.goodG (createNewItem o now key .null false)
        | x => x
      let s1 := match sg2 with
        | .goodG it => setCacheItem s it
        | _ => s
      match getCacheItem s1 key with
      | some it => (s1, .ok it.value)
      | none => (s1, .error .typeErr)
  | some item0 =>
    if isExpired now item0 then
      match getStoreItem s key with
      | .error e => (s, .error e)
      | .ok sg =>
        let v1 := match sg with
          | .goodG it => it.value
          | _ => item0.value
        let item1 : Item :=
          { item0 with
            value := v1
            expires := calculateExpiresDate o
              (if item0.isLongTerm then o.ttl else o.longTtl) now }
        let s1 : State := { s with cache := aset key item1 s.cache }
        match setStoreItem s1 item1 with
        | (s2, some e) => (s2, .error e)
        | (s2, none) => (setCacheItem s2 item1, .ok item1.value)
    else (s, .ok item0.value)

/-- The common tail of `set`: `setStoreItem(item); setCacheItem(item)`, an
exception in the former propagating before the latter runs. -/
def setFinish (s : State) (item : Item) : State × Option Err :=
  match setStoreItem s item with
  | (s1, some e) => (s1, some e)
  | (s1, none) => (setCacheItem s1 item, none)

/-- The class-change branch of `set` (source lines 335-338 and tail):
`deleteStoreItem(key)` targets the old backend (the cached item still holds
its old class), then `item.isLongTerm = isLongTerm` — an in-place mutation,
so the cache slot at `key` sees the reassignment — then the common tail. -/
def setMoveStore (key : String) (isLongTerm : Bool) (item1 : Item)
    (s1 : State) : State × Option Err :=
  match deleteStoreItem s1 key with
  | (s2, some e) => (s2, some e)
  | (s2, none) =>
    let item2 : Item := { item1 with isLongTerm := isLongTerm }
    setFinish { s2 with cache := aset key item2 s2.cache } item2

/-- set (source lines 310-342).  Miss: `createNewItem(key, value, isLongTerm)`
(whose class equals `!!isLongTerm`, so the class-change branch is skipped).
Hit: overwrite `value` and recompute `expires` from the CURRENT class with
`item.isLongTerm ? _options.ttl : _options.longTtl` (in place, so the cache
slot at `key` is updated immediately).  Then, if the requested class
differs, the class-change branch `setMoveStore`; finally the common tail. -/
def set (o : Options) (now : Int) (key : String) (value : JVal)
    (isLongTerm : Bool) (s : State) : State × Option Err :=
  match getCacheItem s key with
  | none => setFinish s (createNewItem o now key value isLongTerm)
  | some item0 =>
    let item1 : Item :=
      { item0 with
        value := value
        expires := calculateExpiresDate o
          (if item0.isLongTerm then o.ttl else o.longTtl) now }
    let s1 : State := { s with cache := aset key item1 s.cache }
    if item1.isLongTerm = isLongTerm then setFinish s1 item1
    else setMoveStore key isLongTerm item1 s1

/-- del (source lines 351-365).  With a falsy key and truthy
`confirmDeleteAll`: remove both namespace blobs and replace the cache with a
fresh empty object.  Otherwise `deleteStoreItem` first (so the mechanism can
be read from the cached item), then `deleteCacheItem`; an exception in the
former propagates before the latter runs. -/
def del (key : String) (confirmDeleteAll : Bool) (s : State) :
    State × Option Err :=
  if key = "" ∧ confirmDeleteAll then
    ({ cache := [], locSto := none, sesSto := none }, none)
  else
    match deleteStoreItem s key with
    | (s1, some e) => (s1, some e)
    | (s1, none) => (deleteCacheItem s1 key, none)

/-- Loop body of list: `valuesObj[keys[i]] = this.get(keys[i])` over the
snapshot of cache keys, threading the state (each `get` may refresh). -/
def listGo (o : Options) (now : Int) :
    List String → State → List (String × JVal) →
    State × Except Err (List (String × JVal))
  | [], s, acc => (s, .ok acc)
  | k :: ks, s, acc =>
    match get o now k s with
    | (s1, .error e) => (s1, .error e)
    | (s1, .ok v) => listGo o now ks s1 (aset k v acc)

/-- list (source lines 372-379): keys are snapshotted once, then each is
`get`, accumulating a key ↦ value object. -/
def list (o : Options) (now : Int) (s : State) :
    State × Except Err (List (String × JVal)) :=
  listGo o now (s.cache.map Prod.fst) s []

/-- The blob `setStoreItem` merges into: the deserialized one, or `{}` when
the slot is absent. -/
def blobOrEmpty : Option Stored → Blob
  | some (.blob b) => b
  | _ => []

/-- The state of a freshly constructed engine over empty storages. -/
def initState : State :=
  { cache := [], locSto := none, sesSto := none }

/-- The in-place mutation of a cached item on the `set` hit path (source
lines 324-325): overwrite `value`, recompute `expires` from the CURRENT
retention class with `item.isLongTerm ? _options.ttl : _options.longTtl`. -/
def hitItem (o : Options) (now : Int) (v : JVal) (item0 : Item) : Item :=
  { id := item0.id
    value := v
    expires := calculateExpiresDate o
      (if item0.isLongTerm then o.ttl else o.longTtl) now
    isLongTerm := item0.isLongTerm }

/-- The mutated item after the class reassignment of the `set` class-change
branch (source line 337). -/
def moveItem (o : Options) (now : Int) (v : JVal) (b : Bool) (item0 : Item) : Item :=
  { hitItem o now v item0 with isLongTerm := b }

/-- The final state of a successful class-changing `set` on a cached item:
erase from the old backend, reassign the class in the cache, then the
merge-write into the new backend and the cache insert. -/
def setDiffResult (o : Options) (now : Int) (k : String) (v : JVal) (b : Bool)
    (item0 : Item) (bb : Blob) (s : State) : State :=
  let item1 := hitItem o now v item0
  let item2 := moveItem o now v b item0
  let s1 : State := { s with cache := aset k item1 s.cache }
  let sd : State := setStoreOf s1 item0.isLongTerm (some (.blob (aerase item0.id bb)))
  let s3 : State := { sd with cache := aset k item2 sd.cache }
  setCacheItem (setStoreOf s3 b
    (some (.blob (aset item0.id (.goodR item2) (blobOrEmpty (storeOf s3 b)))))) item2

/-- The session-storage blob holds no record for `key` (it is absent or its
blob lacks the key): the condition under which a read-through `get` miss
synthesizes a fresh entry. -/
def sesAbsent (s : State) (key : String) : Prop :=
  s.sesSto = none ∨ ∃ b : Blob, s.sesSto = some (.blob b) ∧ alookup key b = none

/-- Does a storage slot hold a namespace blob with a record for `k`? -/
def blobHas : Option Stored → String → Bool
  | some (.blob b), k => (alookup k b).isSome
  | _, _ => false

/-- One `set` call in a sequence: its instant, key, value and retention
class. -/
structure SetCall where
  now : Int
  key : String
  value : JVal
  isLongTerm : Bool

/-- Run a sequence of `set` calls, stopping at the first exception (which
would propagate to the caller). -/
def runSets (o : Options) : List SetCall → State → State × Option Err
  | [], s => (s, none)
  | c :: cs, s =>
    match set o c.now c.key c.value c.isLongTerm s with
    | (s1, some e) => (s1, some e)
    | (s1, none) => runSets o cs s1

/-! The reachability invariant behind the at-most-one-backend property. -/

/-- Neither storage slot holds a corrupt blob. -/
def notCorrupt (s : State) : Prop :=
  ∀ c, storeOf s c ≠ some .corrupt

/-- Every cache slot holds an item whose `id` is its key. -/
def idOk (s : State) : Prop :=
  ∀ m it, alookup m s.cache = some it → it.id = m

/-- Every cached (non-empty) key is persisted exactly in the backend of its
own retention class. -/
def classOk (s : State) : Prop :=
  ∀ m it, m ≠ "" → alookup m s.cache = some it →
    blobHas (storeOf s it.isLongTerm) m = true ∧
    blobHas (storeOf s (!it.isLongTerm)) m = false

/-- Every (non-empty) key persisted in some backend is also cached. -/
def backedOk (s : State) : Prop :=
  ∀ m c, m ≠ "" → blobHas (storeOf s c) m = true →
    (alookup m s.cache).isSome = true

/-- States reachable by `set` sequences from the initial state satisfy all
four conditions. -/
def Inv (s : State) : Prop :=
  notCorrupt s ∧ idOk s ∧ classOk s ∧ backedOk s

/-! Basic lemmas about the association-list operations and storage slots. -/

@[simp]
theorem alookup_aset_self (k : String) (v : α) (l : List (String × α)) :
    alookup k (aset k v l) = some v := by
  induction l with
  | nil => simp [aset, alookup]
  | cons h t ih =>
    obtain ⟨j, w⟩ := h
    by_cases hj : j = k <;> simp [aset, alookup, hj, ih]

theorem alookup_aset_ne (hk : k ≠ m) (v : α) (l : List (String × α)) :
    alookup m (aset k v l) = alookup m l := by
  induction l with
  | nil => simp [aset, alookup, hk]
  | cons h t ih =>
    obtain ⟨j, w⟩ := h
    by_cases hj : j = k
    · subst hj
      simp [aset, alookup, hk, ih]
    · simp [aset, alookup, hj, ih]

@[simp]
theorem alookup_aerase_self (k : String) (l : List (String × α)) :
    alookup k (aerase k l) = none := by
  induction l with
  | nil => simp [aerase, alookup]
  | cons h t ih =>
    obtain ⟨j, w⟩ := h
    by_cases hj : j = k <;> simp [aerase, alookup, hj, ih]

theorem alookup_aerase_ne (hk : k ≠ m) (l : List (String × α)) :
    alookup m (aerase k l) = alookup m l := by
  induction l with
  | nil => simp [aerase, alookup]
  | cons h t ih =>
    obtain ⟨j, w⟩ := h
    by_cases hj : j = k
    · subst hj
      simp [aerase, alookup, hk, ih]
    · simp [aerase, alookup, hj, ih]

theorem alookup_isSome_of_mem_keys {l : List (String × α)} (h : k ∈ l.map Prod.fst) :
    (alookup k l).isSome = true := by
  induction l with
  | nil => simp at h
  | cons hd t ih =>
    obtain ⟨j, w⟩ := hd
    by_cases hj : j = k
    · simp [alookup, hj]
    · simp only [List.map_cons, List.mem_cons] at h
      rcases h with h | h

      · exact absurd h.symm hj
      · simp [alookup, hj, ih h]

theorem not_mem_keys_of_alookup_none {l : List (String × α)} (h : alookup k l = none) :
    k ∉ l.map Prod.fst := by
  intro hmem
  have h2 := alookup_isSome_of_mem_keys hmem
  rw [h] at h2
  simp at h2

@[simp]
theorem storeOf_setStoreOf_same (s : State) (c : Bool) (v : Option Stored) :
    storeOf (setStoreOf s c v) c = v := by
  cases c <;> simp [storeOf, setStoreOf]

theorem storeOf_setStoreOf_ne (s : State) {c d : Bool} (h : c ≠ d) (v : Option Stored) :
    storeOf (setStoreOf s c v) d = storeOf s d := by
  cases c <;> cases d <;> simp_all [storeOf, setStoreOf]

@[simp]
theorem setStoreOf_cache (s : State) (c : Bool) (v : Option Stored) :
    (setStoreOf s c v).cache = s.cache := by
  cases c <;> simp [setStoreOf]

theorem blobHas_storeOf_aset_ne (hk : k ≠ m) (r : Rec) (b : Blob) :
    blobHas (some (.blob (aset k r b))) m = blobHas (some (.blob b)) m := by
  simp [blobHas, alookup_aset_ne hk]

theorem blobHas_storeOf_aerase_ne (hk : k ≠ m) (b : Blob) :
    blobHas (some (.blob (aerase k b))) m = blobHas (some (.blob b)) m := by
  simp [blobHas, alookup_aerase_ne hk]

@[simp]
theorem storeOf_setCacheItem (s : State) (it : Item) (c : Bool) :
    storeOf (setCacheItem s it) c = storeOf s c := by
  cases c <;> rfl

@[simp]
theorem storeOf_mkCache (s : State) (l : List (String × Item)) (c : Bool) :
    storeOf { s with cache := l } c = storeOf s c := by
  cases c <;> rfl

@[simp]
theorem setCacheItem_cache (s : State) (it : Item) :
    (setCacheItem s it).cache = aset it.id it s.cache := rfl

theorem blobHas_write_ne (hm : j ≠ m) (r : Rec) (os : Option Stored) :
    blobHas (some (.blob (aset j r (blobOrEmpty os)))) m = blobHas os m := by
  cases os with
  | none => simp [blobHas, blobOrEmpty, alookup_aset_ne hm, alookup, hm]
  | some st => cases st <;> simp [blobHas, blobOrEmpty, alookup_aset_ne hm, alookup, hm]

theorem blobHas_true_elim (h : blobHas os k = true) :
    ∃ bb : Blob, os = some (.blob bb) ∧ (alookup k bb).isSome = true := by
  cases os with
  | none => simp [blobHas] at h
  | some st =>
    cases st with
    | blob bb => exact ⟨bb, rfl, by simpa [blobHas] using h⟩
    | corrupt => simp [blobHas] at h

/-- With a non-corrupt target slot, `setStoreItem` completes and merges the
record into the (possibly empty) existing blob. -/
theorem setStoreItem_eq (s : State) (item : Item)
    (h : storeOf s item.isLongTerm ≠ some .corrupt) :
    setStoreItem s item =
      (setStoreOf s item.isLongTerm
        (some (.blob (aset item.id (.goodR item)
          (blobOrEmpty (storeOf s item.isLongTerm))))), none) := by
  unfold setStoreItem
  cases hs : storeOf s item.isLongTerm with
  | none => simp [hs, parseStore, blobOrEmpty]
  | some st =>
    cases st with
    | blob b => simp [hs, parseStore, blobOrEmpty]
    | corrupt => exact absurd hs h

/-- With a cached item whose backend blob is present, `deleteStoreItem`
completes and removes `item.id` from that blob. -/
theorem deleteStoreItem_eq (s : State) (hk : key ≠ "")
    (hit : alookup key s.cache = some item)
    (hb : storeOf s item.isLongTerm = some (.blob bb)) :
    deleteStoreItem s key =
      (setStoreOf s item.isLongTerm (some (.blob (aerase item.id bb))), none) := by
  unfold deleteStoreItem
  simp [hk, hit, hb, parseStore]

theorem Inv_initState : Inv initState := by
  refine ⟨fun c => ?_, fun m it h => ?_, fun m it hm h => ?_, fun m c hm h => ?_⟩
  · cases c <;> simp [storeOf, initState]
  · simp [initState, alookup] at h
  · simp [initState, alookup] at h
  · cases c <;> simp [storeOf, initState, blobHas] at h

theorem bool_eq_or_eq_not (c d : Bool) : c = d ∨ c = !d := by
  cases c <;> cases d <;> simp

/-- Writing item into its class backend and then into the cache preserves
the invariant, provided the other backend does not hold the key.  The
hypotheses on the pre-state deliberately exempt the slot `item.id`, whose
condition the write itself establishes. -/
theorem Inv_write (s : State) (item : Item)
    (hnc : notCorrupt s) (hid : idOk s)
    (hcls : ∀ m it, m ≠ "" → m ≠ item.id → alookup m s.cache = some it →
      blobHas (storeOf s it.isLongTerm) m = true ∧
      blobHas (storeOf s (!it.isLongTerm)) m = false)
    (hbk : backedOk s)
    (hoth : item.id ≠ "" → blobHas (storeOf s (!item.isLongTerm)) item.id = false) :
    Inv (setCacheItem (setStoreOf s item.isLongTerm
      (some (.blob (aset item.id (.goodR item)
        (blobOrEmpty (storeOf s item.isLongTerm)))))) item) := by
  set d := item.isLongTerm with hd
  set w : Option Stored :=
    some (.blob (aset item.id (.goodR item) (blobOrEmpty (storeOf s d)))) with hw
  set sF := setCacheItem (setStoreOf s d w) item with hsF
  have hcacheF : sF.cache = aset item.id item s.cache := by
    rw [hsF, setCacheItem_cache, setStoreOf_cache]
  have hstoreD : storeOf sF d = w := by
    rw [hsF, storeOf_setCacheItem, storeOf_setStoreOf_same]
  have hstoreN : storeOf sF (!d) = storeOf s (!d) := by
    rw [hsF, storeOf_setCacheItem, storeOf_setStoreOf_ne]
    cases d <;> simp
  have hpres : ∀ c m, m ≠ item.id → blobHas (storeOf sF c) m = blobHas (storeOf s c) m := by
    intro c m hm
    rcases bool_eq_or_eq_not c d with rfl | rfl
    · rw [hstoreD, hw, blobHas_write_ne (fun h => hm h.symm)]
    · rw [hstoreN]
  have hselfD : blobHas (storeOf sF d) item.id = true := by
    rw [hstoreD, hw]
    simp [blobHas]
  refine ⟨fun c => ?_, fun m it h => ?_, fun m it hm h => ?_, fun m c hm h => ?_⟩
  · rcases bool_eq_or_eq_not c d with rfl | rfl
    · rw [hstoreD, hw]
      simp
    · rw [hstoreN]
      exact hnc _
  · rw [hcacheF] at h
    by_cases hmk : m = item.id
    · subst hmk
      rw [alookup_aset_self] at h
      cases h
      rfl
    · rw [alookup_aset_ne (fun hh => hmk hh.symm)] at h
      exact hid m it h
  · rw [hcacheF] at h
    by_cases hmk : m = item.id
    · subst hmk
      rw [alookup_aset_self] at h
      cases h
      exact ⟨hselfD, by rw [hstoreN]; exact hoth hm⟩
    · rw [alookup_aset_ne (fun hh => hmk hh.symm)] at h
      have := hcls m it hm hmk h
      rw [hpres it.isLongTerm m hmk, hpres (!it.isLongTerm) m hmk]
      exact this
  · rw [hcacheF]
    by_cases hmk : m = item.id
    · subst hmk
      rw [alookup_aset_self]
      rfl
    · rw [hpres c m hmk] at h
      rw [alookup_aset_ne (fun hh => hmk hh.symm)]
      exact hbk m c hm h

@[simp]
theorem createNewItem_id (o : Options) (now : Int) (key : String) (value : JVal)
    (lt : Bool) : (createNewItem o now key value lt).id = key := rfl

@[simp]
theorem createNewItem_isLongTerm (o : Options) (now : Int) (key : String)
    (value : JVal) (lt : Bool) : (createNewItem o now key value lt).isLongTerm = lt := rfl

@[simp]
theorem createNewItem_value (o : Options) (now : Int) (key : String)
    (value : JVal) (lt : Bool) : (createNewItem o now key value lt).value = value := rfl

@[simp]
theorem createNewItem_expires (o : Options) (now : Int) (key : String)
    (value : JVal) (lt : Bool) :
    (createNewItem o now key value lt).expires =
      calculateExpiresDate o (if lt then o.ttl else o.longTtl) now := rfl

/-- With a non-corrupt target slot, `setFinish` completes with the
merge-write followed by the cache insert. -/
theorem setFinish_eq (s : State) (item : Item)
    (h : storeOf s item.isLongTerm ≠ some .corrupt) :
    setFinish s item =
      (setCacheItem (setStoreOf s item.isLongTerm
        (some (.blob (aset item.id (.goodR item)
          (blobOrEmpty (storeOf s item.isLongTerm)))))) item, none) := by
  unfold setFinish
  rw [setStoreItem_eq s item h]

/-- `setFinish` completes and preserves the invariant under the `Inv_write`
hypotheses. -/
theorem Inv_setFinish (s : State) (item : Item)
    (hnc : notCorrupt s) (hid : idOk s)
    (hcls : ∀ m it, m ≠ "" → m ≠ item.id → alookup m s.cache = some it →
      blobHas (storeOf s it.isLongTerm) m = true ∧
      blobHas (storeOf s (!it.isLongTerm)) m = false)
    (hbk : backedOk s)
    (hoth : item.id ≠ "" → blobHas (storeOf s (!item.isLongTerm)) item.id = false) :
    (setFinish s item).2 = none ∧ Inv (setFinish s item).1 := by
  rw [setFinish_eq s item (hnc _)]
  exact ⟨rfl, Inv_write s item hnc hid hcls hbk hoth⟩

/-- `setMoveStore` completes and preserves the invariant when the cached
item (old class) is persisted in its own backend and the invariant-style
conditions hold of the pre-state. -/
theorem Inv_setMoveStore (key : String) (b : Bool) (item1 : Item) (s1 : State)
    (hk : key ≠ "") (hid1k : item1.id = key) (hne : item1.isLongTerm ≠ b)
    (hl1 : alookup key s1.cache = some item1)
    (hnc1 : notCorrupt s1) (hid1 : idOk s1)
    (hcls1 : ∀ m it, m ≠ "" → m ≠ key → alookup m s1.cache = some it →
      blobHas (storeOf s1 it.isLongTerm) m = true ∧
      blobHas (storeOf s1 (!it.isLongTerm)) m = false)
    (hbk1 : backedOk s1)
    (hself : blobHas (storeOf s1 item1.isLongTerm) key = true) :
    (setMoveStore key b item1 s1).2 = none ∧ Inv (setMoveStore key b item1 s1).1 := by
  obtain ⟨bb, hbb, hbk0⟩ := blobHas_true_elim hself
  unfold setMoveStore
  rw [deleteStoreItem_eq s1 hk hl1 hbb, hid1k]
  dsimp only
  set c0 := item1.isLongTerm with hc0
  set s2 : State := setStoreOf s1 c0 (some (.blob (aerase key bb))) with hs2
  set item2 : Item :=
    { id := key, value := item1.value, expires := item1.expires, isLongTerm := b }
    with hitem2
  set s3 : State := { s2 with cache := aset key item2 s2.cache } with hs3
  have hs2cache : s2.cache = s1.cache := by rw [hs2, setStoreOf_cache]
  have hs3cache : s3.cache = aset key item2 s1.cache := by rw [hs3, hs2cache]
  have hstore2 : ∀ c, c ≠ c0 → storeOf s2 c = storeOf s1 c := by
    intro c hc
    rw [hs2, storeOf_setStoreOf_ne s1 (fun hh => hc hh.symm)]
  have hstore2c0 : storeOf s2 c0 = some (.blob (aerase key bb)) := by
    rw [hs2, storeOf_setStoreOf_same]
  have hpres2 : ∀ c m, m ≠ key → blobHas (storeOf s2 c) m = blobHas (storeOf s1 c) m := by
    intro c m hm
    by_cases hc : c = c0
    · subst hc
      rw [hstore2c0, hbb, blobHas_storeOf_aerase_ne (fun hh => hm hh.symm)]
    · rw [hstore2 c hc]
  have hstore3 : ∀ c, storeOf s3 c = storeOf s2 c := by
    intro c
    rw [hs3, storeOf_mkCache]
  have hik2 : item2.id = key := by rw [hitem2]
  have hlt2 : item2.isLongTerm = b := by rw [hitem2]
  apply Inv_setFinish s3 item2
  · intro c
    rw [hstore3]
    by_cases hc : c = c0
    · subst hc
      rw [hstore2c0]
      simp
    · rw [hstore2 c hc]
      exact hnc1 c
  · intro m it hm
    rw [hs3cache] at hm
    by_cases hmk : m = key
    · subst hmk
      rw [alookup_aset_self] at hm
      rw [← Option.some.inj hm]
    · rw [alookup_aset_ne (fun hh => hmk hh.symm)] at hm
      exact hid1 m it hm
  · intro m it hm hmid hml
    rw [hs3cache] at hml
    have hmk : m ≠ key := fun hh => hmid (hh.trans hik2.symm)
    rw [alookup_aset_ne (fun hh => hmk hh.symm)] at hml
    have := hcls1 m it hm hmk hml
    rw [hstore3, hstore3, hpres2 it.isLongTerm m hmk, hpres2 (!it.isLongTerm) m hmk]
    exact this
  · intro m c hm hbl
    rw [hs3cache]
    by_cases hmk : m = key
    · subst hmk
      rw [alookup_aset_self]
      rfl
    · rw [hstore3, hpres2 c m hmk] at hbl
      rw [alookup_aset_ne (fun hh => hmk hh.symm)]
      exact hbk1 m c hm hbl
  · intro hm2
    have hbc : (!b) = c0 := by
      rw [hc0]
      cases hb1 : item1.isLongTerm <;> cases hb2 : b <;> simp_all
    rw [hik2, hlt2, hstore3, hbc, hstore2c0]
    simp [blobHas]


/-- Under the invariant, `set` never raises and preserves the invariant. -/
theorem set_preserves_Inv (o : Options) (now : Int) (k : String) (v : JVal)
    (b : Bool) (s : State) (h : Inv s) :
    (set o now k v b s).2 = none ∧ Inv (set o now k v b s).1 := by
  obtain ⟨hnc, hid, hcls, hbk⟩ := h
  unfold set
  cases hg : getCacheItem s k with
  | none =>
    dsimp only
    apply Inv_setFinish s (createNewItem o now k v b) hnc hid
      (fun m it hm _ hml => hcls m it hm hml) hbk
    intro hk0
    rw [createNewItem_id] at hk0
    rw [createNewItem_isLongTerm, createNewItem_id]
    have hal : alookup k s.cache = none := by
      unfold getCacheItem at hg
      rw [if_neg hk0] at hg
      exact hg
    cases hB : blobHas (storeOf s (!b)) k with
    | false => rfl
    | true =>
      have hsm := hbk k (!b) hk0 hB
      rw [hal] at hsm
      simp at hsm
  | some item0 =>
    dsimp only
    have hk : k ≠ "" := by
      intro hke
      rw [hke] at hg
      simp [getCacheItem] at hg
    have hl : alookup k s.cache = some item0 := by
      unfold getCacheItem at hg
      rw [if_neg hk] at hg
      exact hg
    have hid0 : item0.id = k := hid k item0 hl
    by_cases hcl : item0.isLongTerm = b
    · rw [if_pos hcl]
      apply Inv_setFinish
      · intro c
        rw [storeOf_mkCache]
        exact hnc c
      · intro m it hm
        dsimp only at hm
        by_cases hmk : m = k
        · subst hmk
          rw [alookup_aset_self] at hm
          rw [← Option.some.inj hm]
          exact hid0
        · rw [alookup_aset_ne (fun hh => hmk hh.symm)] at hm
          exact hid m it hm
      · intro m it hm hmid hml
        have hmk : m ≠ k := fun hh => hmid (hh.trans hid0.symm)
        rw [storeOf_mkCache, storeOf_mkCache]
        dsimp only at hml
        rw [alookup_aset_ne (fun hh => hmk hh.symm)] at hml
        exact hcls m it hm hml
      · intro m c hm hbl
        rw [storeOf_mkCache] at hbl
        dsimp only
        by_cases hmk : m = k
        · subst hmk
          rw [alookup_aset_self]
          rfl
        · rw [alookup_aset_ne (fun hh => hmk hh.symm)]
          exact hbk m c hm hbl
      · intro hk0
        rw [storeOf_mkCache]
        dsimp only
        rw [hid0]
        exact (hcls k item0 hk hl).2
    · rw [if_neg hcl]
      apply Inv_setMoveStore k b _ _ hk
      · exact hid0
      · exact hcl
      · dsimp only
        rw [alookup_aset_self]
      · intro c
        rw [storeOf_mkCache]
        exact hnc c
      · intro m it hm
        dsimp only at hm
        by_cases hmk : m = k
        · subst hmk
          rw [alookup_aset_self] at hm
          rw [← Option.some.inj hm]
          exact hid0
        · rw [alookup_aset_ne (fun hh => hmk hh.symm)] at hm
          exact hid m it hm
      · intro m it hm hmk hml
        rw [storeOf_mkCache, storeOf_mkCache]
        dsimp only at hml
        rw [alookup_aset_ne (fun hh => hmk hh.symm)] at hml
        exact hcls m it hm hml
      · intro m c hm hbl
        rw [storeOf_mkCache] at hbl
        dsimp only
        by_cases hmk : m = k
        · subst hmk
          rw [alookup_aset_self]
          rfl
        · rw [alookup_aset_ne (fun hh => hmk hh.symm)]
          exact hbk m c hm hbl
      · rw [storeOf_mkCache]
        dsimp only
        exact (hcls k item0 hk hl).1

/-- Under the invariant, a whole sequence of `set` calls completes without
raising and re-establishes the invariant. -/
theorem runSets_ok (o : Options) (cs : List SetCall) (s : State) (h : Inv s) :
    (runSets o cs s).2 = none ∧ Inv (runSets o cs s).1 := by
  induction cs generalizing s with
  | nil => exact ⟨rfl, h⟩
  | cons c cs ih =>
    have h1 := set_preserves_Inv o c.now c.key c.value c.isLongTerm s h
    unfold runSets
    cases hs : set o c.now c.key c.value c.isLongTerm s with
    | mk s1 e =>
      rw [hs] at h1
      cases e with
      | some e2 =>
        have h2 := h1.1
        simp at h2
      | none => exact ih s1 h1.2

/-- The invariant forbids a non-empty key from being recorded in both
backends at once. -/
theorem Inv_not_both (s : State) (h : Inv s) (k : String) (hk : k ≠ "") :
    ¬(blobHas s.locSto k = true ∧ blobHas s.sesSto k = true) := by
  rintro ⟨hll, hss⟩
  obtain ⟨hnc, hid, hcls, hbk⟩ := h
  have hsome := hbk k true hk (by simpa [storeOf] using hll)
  obtain ⟨it, hit⟩ := Option.isSome_iff_exists.mp hsome
  have hcc := (hcls k it hk hit).2
  cases hlt : it.isLongTerm <;> rw [hlt] at hcc <;> simp [storeOf] at hcc <;> simp_all

/-- A successful `setFinish` implies the target slot was not corrupt and
pins down the result state. -/
theorem setFinish_ok_elim (s : State) (item : Item) (s2 : State)
    (h : setFinish s item = (s2, none)) :
    storeOf s item.isLongTerm ≠ some .corrupt ∧
    s2 = setCacheItem (setStoreOf s item.isLongTerm
      (some (.blob (aset item.id (.goodR item)
        (blobOrEmpty (storeOf s item.isLongTerm)))))) item := by
  by_cases hc : storeOf s item.isLongTerm = some .corrupt
  · exfalso
    unfold setFinish setStoreItem at h
    rw [hc] at h
    simp [parseStore] at h
  · rw [setFinish_eq s item hc] at h
    injection h with h1 h2
    exact ⟨hc, h1.symm⟩

/-- A successful `deleteStoreItem` on a cached key implies its backend blob
was present and pins down the result state. -/
theorem deleteStoreItem_ok_elim (s : State) (key : String) (s2 : State)
    (item : Item) (h : deleteStoreItem s key = (s2, none)) (hk : key ≠ "")
    (hl : alookup key s.cache = some item) :
    ∃ bb : Blob, storeOf s item.isLongTerm = some (.blob bb) ∧
      s2 = setStoreOf s item.isLongTerm (some (.blob (aerase item.id bb))) := by
  unfold deleteStoreItem at h
  rw [if_neg hk, hl] at h
  dsimp only at h
  cases hsb : storeOf s item.isLongTerm with
  | none =>
    rw [hsb] at h
    simp [parseStore] at h
  | some st =>
    cases st with
    | corrupt =>
      rw [hsb] at h
      simp [parseStore] at h
    | blob bb =>
      rw [hsb] at h
      simp only [parseStore] at h
      injection h with h1 h2
      exact ⟨bb, rfl, h1.symm⟩

@[simp]
theorem hitItem_id (o : Options) (now : Int) (v : JVal) (item0 : Item) :
    (hitItem o now v item0).id = item0.id := rfl

@[simp]
theorem hitItem_value (o : Options) (now : Int) (v : JVal) (item0 : Item) :
    (hitItem o now v item0).value = v := rfl

@[simp]
theorem hitItem_expires (o : Options) (now : Int) (v : JVal) (item0 : Item) :
    (hitItem o now v item0).expires =
      calculateExpiresDate o (if item0.isLongTerm then o.ttl else o.longTtl) now := rfl

@[simp]
theorem hitItem_isLongTerm (o : Options) (now : Int) (v : JVal) (item0 : Item) :
    (hitItem o now v item0).isLongTerm = item0.isLongTerm := rfl

@[simp]
theorem moveItem_id (o : Options) (now : Int) (v : JVal) (b : Bool) (item0 : Item) :
    (moveItem o now v b item0).id = item0.id := rfl

@[simp]
theorem moveItem_value (o : Options) (now : Int) (v : JVal) (b : Bool) (item0 : Item) :
    (moveItem o now v b item0).value = v := rfl

@[simp]
theorem moveItem_expires (o : Options) (now : Int) (v : JVal) (b : Bool) (item0 : Item) :
    (moveItem o now v b item0).expires =
      calculateExpiresDate o (if item0.isLongTerm then o.ttl else o.longTtl) now := rfl

@[simp]
theorem moveItem_isLongTerm (o : Options) (now : Int) (v : JVal) (b : Bool) (item0 : Item) :
    (moveItem o now v b item0).isLongTerm = b := rfl

/-- The expiry stamped on any newly computed item is never in the past when
both configured TTLs are nonnegative. -/
theorem calculateExpires_ge (o : Options) (now t : Int)
    (h0 : 0 ≤ o.ttl) (ht : 0 ≤ t) :
    now ≤ calculateExpiresDate o t now := by
  unfold calculateExpiresDate
  split <;> omega

theorem ite_ttl_nonneg (o : Options) (c : Bool) (h0 : 0 ≤ o.ttl)
    (h1 : 0 ≤ o.longTtl) : 0 ≤ if c then o.ttl else o.longTtl := by
  cases c <;> simpa

/-- A successful `set` on a cache miss pins down the result state. -/
theorem set_miss_elim (o : Options) (now : Int) (k : String) (v : JVal) (b : Bool)
    (s s2 : State) (hg : getCacheItem s k = none)
    (hok : set o now k v b s = (s2, none)) :
    s2 = setCacheItem (setStoreOf s b
      (some (.blob (aset k (.goodR (createNewItem o now k v b))
        (blobOrEmpty (storeOf s b)))))) (createNewItem o now k v b) := by
  unfold set at hok
  rw [hg] at hok
  exact (setFinish_ok_elim _ _ _ hok).2

/-- A successful `set` on a cache hit with an unchanged retention class pins
down the result state. -/
theorem set_hit_same_elim (o : Options) (now : Int) (k : String) (v : JVal)
    (b : Bool) (s s2 : State) (item0 : Item)
    (hk : k ≠ "") (hl : alookup k s.cache = some item0)
    (hcl : item0.isLongTerm = b)
    (hok : set o now k v b s = (s2, none)) :
    s2 = setCacheItem (setStoreOf
      { s with cache := aset k (hitItem o now v item0) s.cache }
      item0.isLongTerm
      (some (.blob (aset item0.id (.goodR (hitItem o now v item0))
        (blobOrEmpty (storeOf s item0.isLongTerm))))))
      (hitItem o now v item0) := by
  unfold set at hok
  have hgc : getCacheItem s k = some item0 := by
    unfold getCacheItem
    rw [if_neg hk]
    exact hl
  rw [hgc] at hok
  dsimp only at hok
  rw [if_pos hcl] at hok
  exact (setFinish_ok_elim _ _ _ hok).2

/-- A successful `set` on a cache hit with a changed retention class pins
down the old backend blob and the result state. -/
theorem set_hit_diff_elim (o : Options) (now : Int) (k : String) (v : JVal)
    (b : Bool) (s s2 : State) (item0 : Item)
    (hk : k ≠ "") (hl : alookup k s.cache = some item0)
    (hcl : ¬ item0.isLongTerm = b)
    (hok : set o now k v b s = (s2, none)) :
    ∃ bb : Blob, storeOf s item0.isLongTerm = some (.blob bb) ∧
      s2 = setDiffResult o now k v b item0 bb s := by
  unfold set at hok
  have hgc : getCacheItem s k = some item0 := by
    unfold getCacheItem
    rw [if_neg hk]
    exact hl
  rw [hgc] at hok
  dsimp only at hok
  rw [if_neg hcl] at hok
  unfold setMoveStore at hok
  split at hok
  next sd e2 hdel =>
    exfalso
    injection hok with h1 h2
    simp at h2
  next sd hdel =>
    have hl1 : alookup k
        ({ s with cache := aset k (hitItem o now v item0) s.cache } : State).cache =
        some (hitItem o now v item0) := by
      dsimp only
      rw [alookup_aset_self]
    obtain ⟨bb, hbb, hsd⟩ := deleteStoreItem_ok_elim _ k sd _ hdel hk hl1
    subst hsd
    obtain ⟨hnc2, hs2⟩ := setFinish_ok_elim _ _ _ hok
    refine ⟨bb, ?_, ?_⟩
    · exact hbb
    · exact hs2

/-- A failing `setStoreItem` can only come from a corrupt target slot. -/
theorem setStoreItem_err_elim (s : State) (item : Item) (s2 : State) (e : Err)
    (h : setStoreItem s item = (s2, some e)) :
    storeOf s item.isLongTerm = some .corrupt := by
  unfold setStoreItem at h
  cases hsb : storeOf s item.isLongTerm with
  | none =>
    rw [hsb] at h
    simp [parseStore] at h
  | some st =>
    cases st with
    | blob bl =>
      rw [hsb] at h
      simp [parseStore] at h
    | corrupt => rfl

/-- A successful `setStoreItem` pins down the result state. -/
theorem setStoreItem_ok_elim (s : State) (item : Item) (s2 : State)
    (h : setStoreItem s item = (s2, none)) :
    s2 = setStoreOf s item.isLongTerm
      (some (.blob (aset item.id (.goodR item)
        (blobOrEmpty (storeOf s item.isLongTerm))))) := by
  by_cases hc : storeOf s item.isLongTerm = some .corrupt
  · unfold setStoreItem at h
    rw [hc] at h
    simp [parseStore] at h
  · rw [setStoreItem_eq s item hc] at h
    injection h with h1 h2
    exact h1.symm

/-- A fresh cache hit: `get` changes nothing and returns the cached value. -/
theorem get_fresh (o : Options) (now : Int) (key : String) (s : State) (item : Item)
    (hk : key ≠ "") (hit : alookup key s.cache = some item)
    (hfr : ¬ item.expires < now) :
    get o now key s = (s, .ok item.value) := by
  unfold get
  have hgc : getCacheItem s key = some item := by
    unfold getCacheItem
    rw [if_neg hk]
    exact hit
  rw [hgc]
  dsimp only
  rw [if_neg (by simpa [isExpired] using hfr)]

/-- A read-through miss with nothing in the consulted (session) backend:
`get` synthesizes a fresh null-valued short entry, inserts it into the
cache only, and returns `null`. -/
theorem get_prime_synth (o : Options) (now : Int) (key : String) (s : State)
    (hk : key ≠ "") (hmiss : alookup key s.cache = none) (hses : sesAbsent s key) :
    get o now key s =
      ({ s with cache := aset key (createNewItem o now key .null false) s.cache },
        .ok .null) := by
  have hgc : getCacheItem s key = none := by
    unfold getCacheItem
    rw [if_neg hk]
    exact hmiss
  have hgs : getStoreItem s key = .ok .falsy := by
    unfold getStoreItem
    rw [if_neg hk]
    dsimp only
    rw [hmiss]
    dsimp only
    rcases hses with h | ⟨bl, hb, hnone⟩
    · rw [show storeOf s false = s.sesSto from rfl, h]
      rfl
    · rw [show storeOf s false = s.sesSto from rfl, hb]
      dsimp only [parseStore]
      rw [hnone]
  unfold get
  rw [hgc, hgs]
  dsimp only
  have hgc2 : getCacheItem (setCacheItem s (createNewItem o now key .null false)) key
      = some (createNewItem o now key .null false) := by
    unfold getCacheItem setCacheItem
    rw [if_neg hk]
    dsimp only
    rw [createNewItem_id, alookup_aset_self]
  rw [hgc2]
  simp [setCacheItem]

/-- A stale cache hit with a non-corrupt backend slot: `get` refreshes the
entry in place, recomputing `expires` with the TTL selected by
`item.isLongTerm ? _options.ttl : _options.longTtl`, and returns its value. -/
theorem get_stale_elim (o : Options) (now : Int) (key : String) (s : State)
    (item0 : Item) (hk : key ≠ "") (hl : alookup key s.cache = some item0)
    (hst : item0.expires < now)
    (hnc : storeOf s item0.isLongTerm ≠ some .corrupt) :
    ∃ it1 : Item,
      alookup key ((get o now key s).1).cache = some it1 ∧
      (get o now key s).2 = .ok it1.value ∧
      it1.id = item0.id ∧
      it1.isLongTerm = item0.isLongTerm ∧
      it1.expires = calculateExpiresDate o
        (if item0.isLongTerm then o.ttl else o.longTtl) now ∧
      (∀ m, m ≠ key → m ≠ item0.id →
        alookup m ((get o now key s).1).cache = alookup m s.cache) ∧
      (∀ c, storeOf ((get o now key s).1) c = storeOf s c ∨
        ∃ bl : Blob, storeOf ((get o now key s).1) c = some (.blob bl)) := by
  unfold get
  have hgc : getCacheItem s key = some item0 := by
    unfold getCacheItem
    rw [if_neg hk]
    exact hl
  rw [hgc]
  dsimp only
  rw [if_pos (by simpa [isExpired] using hst)]
  have hgs : ∃ sg, getStoreItem s key = .ok sg := by
    unfold getStoreItem
    rw [if_neg hk]
    dsimp only
    rw [hl]
    dsimp only
    cases hsb : storeOf s item0.isLongTerm with
    | none => exact ⟨.falsy, rfl⟩
    | some st =>
      cases st with
      | corrupt => exact absurd hsb hnc
      | blob bl =>
        dsimp only [parseStore]
        cases halb : alookup key bl with
        | none => exact ⟨.falsy, rfl⟩
        | some r =>
          cases r with
          | goodR it => exact ⟨.goodG it, rfl⟩
          | badT => exact ⟨.badT, rfl⟩
          | badF => exact ⟨.falsy, rfl⟩
  obtain ⟨sg, hgs⟩ := hgs
  rw [hgs]
  dsimp only
  cases sg with
  | falsy =>
    dsimp only
    split
    next s2x e hsse => exact absurd (setStoreItem_err_elim _ _ _ _ hsse) hnc
    next s2x hsse =>
      obtain rfl := setStoreItem_ok_elim _ _ _ hsse
      refine ⟨{ id := item0.id, value := item0.value,
                expires := calculateExpiresDate o
                  (if item0.isLongTerm then o.ttl else o.longTtl) now,
                isLongTerm := item0.isLongTerm }, ?_, rfl, rfl, rfl, rfl, ?_, ?_⟩
      · rw [setCacheItem_cache, setStoreOf_cache]
        dsimp only
        by_cases hidk : item0.id = key
        · rw [hidk, alookup_aset_self]
        · rw [alookup_aset_ne hidk, alookup_aset_self]
      · intro m hm1 hm2
        rw [setCacheItem_cache, setStoreOf_cache]
        dsimp only
        rw [alookup_aset_ne (fun hh => hm2 hh.symm),
          alookup_aset_ne (fun hh => hm1 hh.symm)]
      · intro c
        rw [storeOf_setCacheItem]
        rcases bool_eq_or_eq_not c item0.isLongTerm with rfl | rfl
        · right
          rw [storeOf_setStoreOf_same]
          exact ⟨_, rfl⟩
        · left
          rw [storeOf_setStoreOf_ne _ (by cases item0.isLongTerm <;> simp), storeOf_mkCache]
  | badT =>
    dsimp only
    split
    next s2x e hsse => exact absurd (setStoreItem_err_elim _ _ _ _ hsse) hnc
    next s2x hsse =>
      obtain rfl := setStoreItem_ok_elim _ _ _ hsse
      refine ⟨{ id := item0.id, value := item0.value,
                expires := calculateExpiresDate o
                  (if item0.isLongTerm then o.ttl else o.longTtl) now,
                isLongTerm := item0.isLongTerm }, ?_, rfl, rfl, rfl, rfl, ?_, ?_⟩
      · rw [setCacheItem_cache, setStoreOf_cache]
        dsimp only
        by_cases hidk : item0.id = key
        · rw [hidk, alookup_aset_self]
        · rw [alookup_aset_ne hidk, alookup_aset_self]
      · intro m hm1 hm2
        rw [setCacheItem_cache, setStoreOf_cache]
        dsimp only
        rw [alookup_aset_ne (fun hh => hm2 hh.symm),
          alookup_aset_ne (fun hh => hm1 hh.symm)]
      · intro c
        rw [storeOf_setCacheItem]
        rcases bool_eq_or_eq_not c item0.isLongTerm with rfl | rfl
        · right
          rw [storeOf_setStoreOf_same]
          exact ⟨_, rfl⟩
        · left
          rw [storeOf_setStoreOf_ne _ (by cases item0.isLongTerm <;> simp), storeOf_mkCache]
  | goodG it =>
    dsimp only
    split
    next s2x e hsse => exact absurd (setStoreItem_err_elim _ _ _ _ hsse) hnc
    next s2x hsse =>
      obtain rfl := setStoreItem_ok_elim _ _ _ hsse
      refine ⟨{ id := item0.id, value := it.value,
                expires := calculateExpiresDate o
                  (if item0.isLongTerm then o.ttl else o.longTtl) now,
                isLongTerm := item0.isLongTerm }, ?_, rfl, rfl, rfl, rfl, ?_, ?_⟩
      · rw [setCacheItem_cache, setStoreOf_cache]
        dsimp only
        by_cases hidk : item0.id = key
        · rw [hidk, alookup_aset_self]
        · rw [alookup_aset_ne hidk, alookup_aset_self]
      · intro m hm1 hm2
        rw [setCacheItem_cache, setStoreOf_cache]
        dsimp only
        rw [alookup_aset_ne (fun hh => hm2 hh.symm),
          alookup_aset_ne (fun hh => hm1 hh.symm)]
      · intro c
        rw [storeOf_setCacheItem]
        rcases bool_eq_or_eq_not c item0.isLongTerm with rfl | rfl
        · right
          rw [storeOf_setStoreOf_same]
          exact ⟨_, rfl⟩
        · left
          rw [storeOf_setStoreOf_ne _ (by cases item0.isLongTerm <;> simp), storeOf_mkCache]

theorem mem_keys_of_alookup_isSome {l : List (String × α)}
    (h : (alookup k l).isSome = true) : k ∈ l.map Prod.fst := by
  induction l with
  | nil => simp [alookup] at h
  | cons hd t ih =>
    obtain ⟨j, w⟩ := hd
    by_cases hj : j = k
    · subst hj
      simp
    · rw [alookup] at h
      rw [if_neg hj] at h
      simpa using Or.inr (ih h)

theorem mem_keys_aset {l : List (String × α)}
    (h : j ∈ (aset k v l).map Prod.fst) : j = k ∨ j ∈ l.map Prod.fst := by
  by_cases hjk : j = k
  · exact Or.inl hjk
  · right
    have h2 := alookup_isSome_of_mem_keys h
    rw [alookup_aset_ne (fun hh => hjk hh.symm)] at h2
    exact mem_keys_of_alookup_isSome h2

/-- A `get` on a non-empty cached key, with no corrupt blob: it completes,
returns a value, preserves the key-id discipline and non-corruption, leaves
every other cache slot unchanged, and keeps the key cached. -/
theorem get_hit_step (o : Options) (now : Int) (j : String) (s : State)
    (it : Item) (hj : j ≠ "") (hit : alookup j s.cache = some it)
    (hid : idOk s) (hnc : notCorrupt s) :
    ∃ s2 v, get o now j s = (s2, .ok v) ∧ idOk s2 ∧ notCorrupt s2 ∧
      (∀ m, m ≠ j → alookup m s2.cache = alookup m s.cache) ∧
      (alookup j s2.cache).isSome = true := by
  by_cases hexp : it.expires < now
  · obtain ⟨it1, h1, h2, h3, h4, h5, h6, h7⟩ :=
      get_stale_elim o now j s it hj hit hexp (hnc _)
    have hidj : it.id = j := hid j it hit
    refine ⟨(get o now j s).1, it1.value, ?_, ?_, ?_, ?_, ?_⟩
    · rw [← h2]
    · intro m it2 hm
      by_cases hmj : m = j
      · subst hmj
        rw [h1] at hm
        rw [← Option.some.inj hm, h3, hidj]
      · rw [h6 m hmj (by rw [hidj]; exact hmj)] at hm
        exact hid m it2 hm
    · intro c
      rcases h7 c with h | ⟨bl, h⟩
      · rw [h]
        exact hnc c
      · rw [h]
        simp
    · intro m hm
      exact h6 m hm (by rw [hidj]; exact hm)
    · rw [h1]
      rfl
  · refine ⟨s, it.value, get_fresh o now j s it hj hit hexp, hid, hnc,
      fun m _ => rfl, ?_⟩
    rw [hit]
    rfl

/-- Running the `list` loop over keys that are all cached and non-empty,
with no corrupt blob, completes; the accumulated object maps a fresh
null-valued cached key to `null`. -/
theorem listGo_keeps (o : Options) (now : Int) (k : String) (itk : Item)
    (hk : k ≠ "") (hval : itk.value = .null) (hfr : ¬ itk.expires < now) :
    ∀ (keys : List String) (s : State) (acc : List (String × JVal)),
      (∀ j ∈ keys, j ≠ "" ∧ (alookup j s.cache).isSome = true) →
      idOk s → notCorrupt s → alookup k s.cache = some itk →
      ∃ s2 vs, listGo o now keys s acc = (s2, .ok vs) ∧
        (k ∈ keys → alookup k vs = some .null) ∧
        (k ∉ keys → alookup k vs = alookup k acc) := by
  intro keys
  induction keys with
  | nil =>
    intro s acc _ _ _ _
    exact ⟨s, acc, rfl, by simp, fun _ => rfl⟩
  | cons j js ih =>
    intro s acc hall hid hnc hitk
    obtain ⟨hj, hjs⟩ := hall j (List.mem_cons_self j js)
    by_cases hjk : j = k
    · subst hjk
      have hg := get_fresh o now j s itk hj hitk hfr
      unfold listGo
      rw [hg]
      dsimp only
      rw [hval]
      obtain ⟨s2, vs, hrun, hin, hout⟩ := ih s (aset j JVal.null acc)
        (fun j2 hj2 => hall j2 (List.mem_cons_of_mem _ hj2)) hid hnc hitk
      refine ⟨s2, vs, hrun, fun _ => ?_,
        fun hnot => absurd (List.mem_cons_self j js) hnot⟩
      by_cases hmem : j ∈ js
      · exact hin hmem
      · rw [hout hmem, alookup_aset_self]
    · obtain ⟨itj, hitj⟩ := Option.isSome_iff_exists.mp hjs
      obtain ⟨s2, v, hg, hid2, hnc2, hpres, hsome⟩ :=
        get_hit_step o now j s itj hj hitj hid hnc
      unfold listGo
      rw [hg]
      dsimp only
      have hall2 : ∀ j2 ∈ js, j2 ≠ "" ∧ (alookup j2 s2.cache).isSome = true := by
        intro j2 hj2
        refine ⟨(hall j2 (List.mem_cons_of_mem _ hj2)).1, ?_⟩
        by_cases hj2j : j2 = j
        · subst hj2j
          exact hsome
        · rw [hpres j2 hj2j]
          exact (hall j2 (List.mem_cons_of_mem _ hj2)).2
      have hitk2 : alookup k s2.cache = some itk := by
        rw [hpres k (fun hh => hjk hh.symm)]
        exact hitk
      obtain ⟨s3, vs, hrun, hin, hout⟩ := ih s2 (aset j v acc) hall2 hid2 hnc2 hitk2
      refine ⟨s3, vs, hrun, ?_, ?_⟩
      · intro hmem
        rcases List.mem_cons.mp hmem with h | h
        · exact absurd h.symm hjk
        · exact hin h
      · intro hnot
        have hknotjs : k ∉ js := fun hh => hnot (List.mem_cons_of_mem _ hh)
        rw [hout hknotjs, alookup_aset_ne hjk]

/-- C1 counterexample: the claim says a stale `get` recomputes `expires`
from the TTL matching the entry's own retention class.  With ttl (short)
= 1000 and longTtl = 5000, a stale Long-retention entry refreshed at
now = 10 gets `expires = 1010 = now + ttl` (the SHORT ttl), not
`now + longTtl = 5010` as claimed. -/
theorem C1_stale_refresh_own_ttl_cex :
    isExpired 10 (⟨"k", .num 1, 0, true⟩ : Item) = true ∧
    alookup "k" ((get ⟨1000, 5000⟩ 10 "k"
      ⟨[("k", ⟨"k", .num 1, 0, true⟩)],
        some (.blob [("k", .goodR ⟨"k", .num 7, 0, true⟩)]), none⟩).1).cache =
      some ⟨"k", .num 7, 1010, true⟩ ∧
    (1010 : Int) ≠ 10 + 5000 := by decide

/-- C1 (amended): for every stale cached entry, `get` recomputes the
entry's `expires` using the OPPOSITE TTL of its retention class: shortTtl
(`_options.ttl`) when the entry is Long-retention, longTtl when it is
Short-retention (provided the entry's backend slot is not corrupt and both
TTLs are nonzero). -/
theorem C1_stale_refresh_uses_opposite_ttl (o : Options) (now : Int)
    (key : String) (s : State) (item0 : Item) (hk : key ≠ "")
    (hl : alookup key s.cache = some item0) (hst : item0.expires < now)
    (hnc : storeOf s item0.isLongTerm ≠ some .corrupt)
    (ht : o.ttl ≠ 0) (hlt : o.longTtl ≠ 0) :
    ∃ it1 : Item, alookup key ((get o now key s).1).cache = some it1 ∧
      it1.isLongTerm = item0.isLongTerm ∧
      it1.expires = now + (if item0.isLongTerm then o.ttl else o.longTtl) := by
  obtain ⟨it1, h1, h2, h3, h4, h5, h6, h7⟩ :=
    get_stale_elim o now key s item0 hk hl hst hnc
  refine ⟨it1, h1, h4, ?_⟩
  rw [h5]
  unfold calculateExpiresDate
  cases hc : item0.isLongTerm <;> simp [ht, hlt]

/-- C1 witness: the amended statement at a concrete stale Long entry. -/
theorem C1_stale_refresh_uses_opposite_ttl_witness :
    ∃ it1 : Item,
      alookup "k" ((get ⟨1000, 5000⟩ 10 "k"
        ⟨[("k", ⟨"k", .num 1, 0, true⟩)], some (.blob []), none⟩).1).cache =
        some it1 ∧
      it1.isLongTerm = true ∧
      it1.expires = 10 + 1000 :=
  C1_stale_refresh_uses_opposite_ttl ⟨1000, 5000⟩ 10 "k"
    ⟨[("k", ⟨"k", .num 1, 0, true⟩)], some (.blob []), none⟩
    ⟨"k", .num 1, 0, true⟩ (by decide) (by decide) (by decide) (by decide)
    (by decide) (by decide)

/-- C2: on creation (`createNewItem`, reached both from `set` on an absent
key and from the `get`-miss synthesis), the entry's `expires` is computed
from the OPPOSITE TTL of its declared class: a Long entry is stamped with
shortTtl (`_options.ttl`) and a Short entry with longTtl (provided both
TTLs are nonzero, since a zero TTL argument falls back to `_options.ttl`
through the `ttl || _options.ttl` default). -/
theorem C2_creation_opposite_ttl (o : Options) (now : Int) (key : String)
    (v : JVal) (lt : Bool) (ht : o.ttl ≠ 0) (hlt : o.longTtl ≠ 0) :
    (createNewItem o now key v lt).isLongTerm = lt ∧
    (createNewItem o now key v lt).expires =
      now + (if lt then o.ttl else o.longTtl) := by
  refine ⟨rfl, ?_⟩
  rw [createNewItem_expires]
  unfold calculateExpiresDate
  cases lt <;> simp [ht, hlt]

/-- C2 witness: a new Long-retention entry is stamped with the short TTL. -/
theorem C2_creation_opposite_ttl_witness :
    (createNewItem ⟨1000, 5000⟩ 0 "k" (.num 1) true).isLongTerm = true ∧
    (createNewItem ⟨1000, 5000⟩ 0 "k" (.num 1) true).expires = 0 + 1000 :=
  C2_creation_opposite_ttl ⟨1000, 5000⟩ 0 "k" (.num 1) true
    (by decide) (by decide)

/-- C3 counterexample: the claim quantifies over EVERY key, but with the
empty key both backends end up holding a record: `set("", v, Short)` then
`set("", v, Long)` leaves a record under `""` in the session AND local
blobs, because `getCacheItem` refuses the empty key, so the second call
takes the miss path and never deletes from the old backend. -/
theorem C3_at_most_one_backend_cex :
    blobHas ((runSets ⟨1000, 5000⟩
      [⟨0, "", .num 1, false⟩, ⟨0, "", .num 2, true⟩] initState).1).locSto "" = true ∧
    blobHas ((runSets ⟨1000, 5000⟩
      [⟨0, "", .num 1, false⟩, ⟨0, "", .num 2, true⟩] initState).1).sesSto "" = true := by
  decide

/-- C3 (amended): for every NON-EMPTY key, after any finite sequence of
`set` calls with varying retention classes from an empty engine and empty
backends, the sequence completes without raising and at most one of the two
backends' namespace blobs contains a record for that key — never both. -/
theorem C3_at_most_one_backend (o : Options) (cs : List SetCall) (k : String)
    (hk : k ≠ "") :
    (runSets o cs initState).2 = none ∧
    ¬(blobHas ((runSets o cs initState).1).locSto k = true ∧
      blobHas ((runSets o cs initState).1).sesSto k = true) := by
  have h := runSets_ok o cs initState Inv_initState
  exact ⟨h.1, Inv_not_both _ h.2 k hk⟩

/-- C3 witness: the amended statement at a concrete class-flipping
sequence. -/
theorem C3_at_most_one_backend_witness :
    ¬(blobHas ((runSets ⟨1000, 5000⟩
        [⟨0, "a", .num 1, false⟩, ⟨1, "a", .num 2, true⟩] initState).1).locSto "a" = true ∧
      blobHas ((runSets ⟨1000, 5000⟩
        [⟨0, "a", .num 1, false⟩, ⟨1, "a", .num 2, true⟩] initState).1).sesSto "a" = true) :=
  (C3_at_most_one_backend ⟨1000, 5000⟩
    [⟨0, "a", .num 1, false⟩, ⟨1, "a", .num 2, true⟩] "a" (by decide)).2

/-- C4 counterexample: the claim quantifies over ANY current engine state,
but when the session blob is corrupt and the key is uncached, `set`
raises from `JSON.parse` without caching anything, and the immediate `get`
raises too instead of returning the value. -/
theorem C4_roundtrip_cex :
    (set ⟨1000, 5000⟩ 0 "k" (.num 42) false ⟨[], none, some .corrupt⟩).2 =
      some .parseErr ∧
    (get ⟨1000, 5000⟩ 0 "k"
      ((set ⟨1000, 5000⟩ 0 "k" (.num 42) false ⟨[], none, some .corrupt⟩).1)).2 ≠
      .ok (.num 42) := by decide

/-- C4 (amended): whenever `set(k, v)` completes without raising (non-empty
key, nonnegative configured TTLs), an immediately following `get(k)` at the
same instant returns exactly `v`: the fresh-hit path hands back the very
value held in the in-memory index, never a reserialized copy. -/
theorem C4_set_get_roundtrip (o : Options) (now : Int) (k : String) (v : JVal)
    (b : Bool) (s s2 : State) (hk : k ≠ "")
    (h0 : 0 ≤ o.ttl) (h1 : 0 ≤ o.longTtl)
    (hok : set o now k v b s = (s2, none)) :
    (get o now k s2).2 = .ok v := by
  cases hgc : alookup k s.cache with
  | none =>
    have hg0 : getCacheItem s k = none := by
      unfold getCacheItem
      rw [if_neg hk]
      exact hgc
    have hs2 := set_miss_elim o now k v b s s2 hg0 hok
    subst hs2
    have hfr : ¬ (createNewItem o now k v b).expires < now := by
      rw [createNewItem_expires]
      have h2 := calculateExpires_ge o now _ h0 (ite_ttl_nonneg o b h0 h1)
      omega
    rw [get_fresh o now k _ (createNewItem o now k v b) hk
      (by rw [setCacheItem_cache, setStoreOf_cache, createNewItem_id,
        alookup_aset_self]) hfr]
    simp
  | some item0 =>
    by_cases hcl : item0.isLongTerm = b
    · have hs2 := set_hit_same_elim o now k v b s s2 item0 hk hgc hcl hok
      subst hs2
      have hfr : ¬ (hitItem o now v item0).expires < now := by
        rw [hitItem_expires]
        have h2 := calculateExpires_ge o now _ h0
          (ite_ttl_nonneg o item0.isLongTerm h0 h1)
        omega
      rw [get_fresh o now k _ (hitItem o now v item0) hk
        (by
          rw [setCacheItem_cache, setStoreOf_cache]
          dsimp only
          rw [hitItem_id]
          by_cases hidk : item0.id = k
          · rw [hidk, alookup_aset_self]
          · rw [alookup_aset_ne hidk, alookup_aset_self]) hfr]
      simp
    · obtain ⟨bb, hbb, hs2⟩ := set_hit_diff_elim o now k v b s s2 item0 hk hgc hcl hok
      subst hs2
      have hfr : ¬ (moveItem o now v b item0).expires < now := by
        rw [moveItem_expires]
        have h2 := calculateExpires_ge o now _ h0
          (ite_ttl_nonneg o item0.isLongTerm h0 h1)
        omega
      rw [get_fresh o now k _ (moveItem o now v b item0) hk
        (by
          unfold setDiffResult
          dsimp only
          rw [setCacheItem_cache, setStoreOf_cache]
          dsimp only
          rw [setStoreOf_cache]
          dsimp only
          rw [moveItem_id]
          by_cases hidk : item0.id = k
          · rw [hidk, alookup_aset_self]
          · rw [alookup_aset_ne hidk, alookup_aset_self]) hfr]
      simp

/-- C4 witness: the amended round trip at a concrete state. -/
theorem C4_set_get_roundtrip_witness :
    (get ⟨1000, 5000⟩ 0 "k"
      ((set ⟨1000, 5000⟩ 0 "k" (.num 42) false initState).1)).2 =
      .ok (.num 42) :=
  C4_set_get_roundtrip ⟨1000, 5000⟩ 0 "k" (.num 42) false initState
    ((set ⟨1000, 5000⟩ 0 "k" (.num 42) false initState).1)
    (by decide) (by decide) (by decide) (by decide)

/-- C5: the claim says no public operation ever raises for a missing or
corrupt blob or a malformed record.  The code does raise: after a
read-through `get` (which caches a synthesized entry without persisting
it), `del` reaches `deleteStoreItem`, whose `JSON.parse` of the absent
blob yields `null` and the subsequent `storeObj[item.id] = null` throws a
TypeError; and with a corrupt session blob, `get` itself throws from the
unguarded `JSON.parse`. -/
theorem C5_operations_raise :
    (get ⟨1000, 5000⟩ 0 "a" initState).2 = .ok .null ∧
    (del "a" false ((get ⟨1000, 5000⟩ 0 "a" initState).1)).2 = some .typeErr ∧
    (get ⟨1000, 5000⟩ 0 "a" ⟨[], none, some .corrupt⟩).2 = .error .parseErr := by
  decide

/-- C6: the claim says operations on an empty key are silent no-ops that
modify nothing.  The code disagrees: `get("")` first pollutes the index
with a synthesized entry under `""` (`setCacheItem` keys by `item.id`,
which validates) and then throws a TypeError (the re-read `getCacheItem`
early-returns `undefined` and `.value` is taken on it); and `set("", v)`
has no key guard at all — it persists a record under `""` to the session
blob and the index. -/
theorem C6_empty_key_not_silent :
    (get ⟨1000, 5000⟩ 0 "" initState).2 = .error .typeErr ∧
    alookup "" ((get ⟨1000, 5000⟩ 0 "" initState).1).cache =
      some ⟨"", .null, 5000, false⟩ ∧
    (set ⟨1000, 5000⟩ 0 "" (.num 7) false initState).2 = none ∧
    ((set ⟨1000, 5000⟩ 0 "" (.num 7) false initState).1).sesSto =
      some (.blob [("", .goodR ⟨"", .num 7, 5000, false⟩)]) ∧
    alookup "" ((set ⟨1000, 5000⟩ 0 "" (.num 7) false initState).1).cache =
      some ⟨"", .num 7, 5000, false⟩ := by
  decide

/-- C7 counterexample: the claim says a `set` on a present key recomputes
`expires` from the TTL of the class requested in the call.  With
ttl = 1000 and longTtl = 5000, overwriting a present Short entry while
requesting Short again yields `expires = 5010 = now + longTtl`, not
`now + shortTtl = 1010`: the code uses the opposite TTL of the entry's
CURRENT class (before any reassignment). -/
theorem C7_set_hit_requested_ttl_cex :
    alookup "k" ((set ⟨1000, 5000⟩ 10 "k" (.num 2) false
      ⟨[("k", ⟨"k", .num 1, 0, false⟩)], none,
        some (.blob [("k", .goodR ⟨"k", .num 1, 0, false⟩)])⟩).1).cache =
      some ⟨"k", .num 2, 5010, false⟩ ∧
    (5010 : Int) ≠ 10 + 1000 := by decide

/-- C7 (amended): a successful `set` on a present key overwrites the value,
recomputes `expires` from the OPPOSITE TTL of the entry's CURRENT class at
call time (before any reassignment), assigns the requested class, and when
the requested class differs it removes the record from the old backend and
persists it in the new one. -/
theorem C7_set_hit_overwrite (o : Options) (now : Int) (k : String) (v : JVal)
    (b : Bool) (s s2 : State) (item0 : Item) (hk : k ≠ "")
    (hl : alookup k s.cache = some item0) (hid0 : item0.id = k)
    (ht : o.ttl ≠ 0) (hlt : o.longTtl ≠ 0)
    (hok : set o now k v b s = (s2, none)) :
    ∃ it : Item, alookup k s2.cache = some it ∧ it.value = v ∧
      it.isLongTerm = b ∧
      it.expires = now + (if item0.isLongTerm then o.ttl else o.longTtl) ∧
      (item0.isLongTerm ≠ b →
        blobHas (storeOf s2 item0.isLongTerm) k = false ∧
        blobHas (storeOf s2 b) k = true) := by
  have hexp : calculateExpiresDate o
      (if item0.isLongTerm then o.ttl else o.longTtl) now
      = now + (if item0.isLongTerm then o.ttl else o.longTtl) := by
    unfold calculateExpiresDate
    cases hc : item0.isLongTerm <;> simp [ht, hlt]
  by_cases hcl : item0.isLongTerm = b
  · have hs2 := set_hit_same_elim o now k v b s s2 item0 hk hl hcl hok
    subst hs2
    refine ⟨hitItem o now v item0, ?_, hitItem_value o now v item0, ?_, ?_,
      fun hne => absurd hcl hne⟩
    · rw [setCacheItem_cache, setStoreOf_cache]
      dsimp only
      rw [hitItem_id, hid0, alookup_aset_self]
    · rw [hitItem_isLongTerm]
      exact hcl
    · rw [hitItem_expires]
      exact hexp
  · obtain ⟨bb, hbb, hs2⟩ := set_hit_diff_elim o now k v b s s2 item0 hk hl hcl hok
    subst hs2
    refine ⟨moveItem o now v b item0, ?_, moveItem_value o now v b item0,
      moveItem_isLongTerm o now v b item0, ?_, fun _ => ⟨?_, ?_⟩⟩
    · unfold setDiffResult
      dsimp only
      rw [setCacheItem_cache, setStoreOf_cache]
      dsimp only
      rw [moveItem_id, hid0, alookup_aset_self]
    · rw [moveItem_expires]
      exact hexp
    · unfold setDiffResult
      dsimp only
      rw [storeOf_setCacheItem, storeOf_setStoreOf_ne _ (fun hh => hcl hh.symm),
        storeOf_mkCache, storeOf_setStoreOf_same, hid0]
      simp [blobHas]
    · unfold setDiffResult
      dsimp only
      rw [storeOf_setCacheItem, storeOf_setStoreOf_same, hid0]
      simp [blobHas]

/-- C7 witness: the amended statement at a concrete class-changing `set`. -/
theorem C7_set_hit_overwrite_witness :
    ∃ it : Item,
      alookup "k" ((set ⟨1000, 5000⟩ 10 "k" (.num 2) true
        ⟨[("k", ⟨"k", .num 1, 0, false⟩)], none,
          some (.blob [("k", .goodR ⟨"k", .num 1, 0, false⟩)])⟩).1).cache =
        some it ∧
      it.value = .num 2 ∧ it.isLongTerm = true ∧
      it.expires = 10 + (if (⟨"k", .num 1, 0, false⟩ : Item).isLongTerm
        then (1000 : Int) else 5000) ∧
      ((⟨"k", .num 1, 0, false⟩ : Item).isLongTerm ≠ true →
        blobHas (storeOf ((set ⟨1000, 5000⟩ 10 "k" (.num 2) true
          ⟨[("k", ⟨"k", .num 1, 0, false⟩)], none,
            some (.blob [("k", .goodR ⟨"k", .num 1, 0, false⟩)])⟩).1)
          (⟨"k", .num 1, 0, false⟩ : Item).isLongTerm) "k" = false ∧
        blobHas (storeOf ((set ⟨1000, 5000⟩ 10 "k" (.num 2) true
          ⟨[("k", ⟨"k", .num 1, 0, false⟩)], none,
            some (.blob [("k", .goodR ⟨"k", .num 1, 0, false⟩)])⟩).1) true) "k"
          = true) :=
  C7_set_hit_overwrite ⟨1000, 5000⟩ 10 "k" (.num 2) true
    ⟨[("k", ⟨"k", .num 1, 0, false⟩)], none,
      some (.blob [("k", .goodR ⟨"k", .num 1, 0, false⟩)])⟩
    ((set ⟨1000, 5000⟩ 10 "k" (.num 2) true
      ⟨[("k", ⟨"k", .num 1, 0, false⟩)], none,
        some (.blob [("k", .goodR ⟨"k", .num 1, 0, false⟩)])⟩).1)
    ⟨"k", .num 1, 0, false⟩ (by decide) (by decide) (by decide) (by decide)
    (by decide) (by decide)

/-- C8: a `get` on a non-empty key absent from the index and from the
consulted session backend synthesizes a null-valued entry, inserts it into
the in-memory index only — both storage slots are left untouched — and
returns `null`. -/
theorem C8_get_miss_synthesizes_cache_only (o : Options) (now : Int)
    (key : String) (s : State) (hk : key ≠ "")
    (hmiss : alookup key s.cache = none) (hses : sesAbsent s key) :
    alookup key ((get o now key s).1).cache =
      some (createNewItem o now key .null false) ∧
    (createNewItem o now key .null false).value = .null ∧
    ((get o now key s).1).locSto = s.locSto ∧
    ((get o now key s).1).sesSto = s.sesSto ∧
    (get o now key s).2 = .ok .null := by
  rw [get_prime_synth o now key s hk hmiss hses]
  refine ⟨?_, rfl, rfl, rfl, rfl⟩
  dsimp only
  rw [alookup_aset_self]

/-- C8 witness: the synthesis at a concrete state whose local blob holds an
unrelated malformed record, showing both storage slots unchanged. -/
theorem C8_get_miss_synthesizes_cache_only_witness :
    alookup "a" ((get ⟨1000, 5000⟩ 0 "a"
      ⟨[], some (.blob [("x", .badT)]), none⟩).1).cache =
      some (createNewItem ⟨1000, 5000⟩ 0 "a" .null false) ∧
    (createNewItem ⟨1000, 5000⟩ 0 "a" .null false).value = .null ∧
    ((get ⟨1000, 5000⟩ 0 "a"
      ⟨[], some (.blob [("x", .badT)]), none⟩).1).locSto =
      some (.blob [("x", .badT)]) ∧
    ((get ⟨1000, 5000⟩ 0 "a"
      ⟨[], some (.blob [("x", .badT)]), none⟩).1).sesSto = none ∧
    (get ⟨1000, 5000⟩ 0 "a" ⟨[], some (.blob [("x", .badT)]), none⟩).2 =
      .ok .null :=
  C8_get_miss_synthesizes_cache_only ⟨1000, 5000⟩ 0 "a"
    ⟨[], some (.blob [("x", .badT)]), none⟩ (by decide) rfl (Or.inl rfl)

/-- C9: `del(null, true)` removes the namespace blob from both backends and
replaces the index with an empty mapping — the state is exactly the
never-used initial state — so a subsequent `get` of any previously set
(non-empty) key synthesizes a fresh null-valued entry instead of
resurrecting old data. -/
theorem C9_del_wipe_resets (o : Options) (s : State) (now : Int) (key : String)
    (hk : key ≠ "") :
    del "" true s = (initState, none) ∧
    get o now key ((del "" true s).1) =
      ({ initState with
          cache := aset key (createNewItem o now key .null false) initState.cache },
        .ok .null) := by
  have h1 : del "" true s = (initState, none) := rfl
  refine ⟨h1, ?_⟩
  rw [h1]
  exact get_prime_synth o now key initState hk rfl (Or.inl rfl)

/-- C9 witness: a concrete wipe of a state that held key `"b"` in the cache
and the local blob, followed by `get("b")`. -/
theorem C9_del_wipe_resets_witness :
    del "" true ⟨[("b", ⟨"b", .num 3, 99, true⟩)],
      some (.blob [("b", .goodR ⟨"b", .num 3, 99, true⟩)]), some .corrupt⟩ =
      (initState, none) ∧
    get ⟨1000, 5000⟩ 7 "b" ((del "" true ⟨[("b", ⟨"b", .num 3, 99, true⟩)],
      some (.blob [("b", .goodR ⟨"b", .num 3, 99, true⟩)]), some .corrupt⟩).1) =
      ({ initState with
          cache := aset "b" (createNewItem ⟨1000, 5000⟩ 7 "b" .null false)
            initState.cache },
        .ok .null) :=
  C9_del_wipe_resets ⟨1000, 5000⟩ ⟨[("b", ⟨"b", .num 3, 99, true⟩)],
    some (.blob [("b", .goodR ⟨"b", .num 3, 99, true⟩)]), some .corrupt⟩
    7 "b" (by decide)

/-- C10: reading has a lasting write effect on the index: a `get` on a
non-empty key absent everywhere leaves the synthesized null-valued entry in
the index, and a subsequent `list` (run at the same instant, over a state
with the key-id discipline, no corrupt blob and no empty-key slot)
completes and includes that key mapped to `null`. -/
theorem C10_get_then_list_includes (o : Options) (now : Int) (k : String)
    (s : State) (hk : k ≠ "") (hmiss : alookup k s.cache = none)
    (hses : sesAbsent s k) (hid : idOk s) (hnc : notCorrupt s)
    (hempty : alookup "" s.cache = none)
    (h0 : 0 ≤ o.ttl) (h1 : 0 ≤ o.longTtl) :
    alookup k ((get o now k s).1).cache =
      some (createNewItem o now k .null false) ∧
    ∃ s2 vs, list o now ((get o now k s).1) = (s2, .ok vs) ∧
      alookup k vs = some .null := by
  rw [get_prime_synth o now k s hk hmiss hses]
  dsimp only
  constructor
  · rw [alookup_aset_self]
  · have hitk : alookup k
        ({ s with cache := aset k (createNewItem o now k .null false) s.cache }
          : State).cache = some (createNewItem o now k .null false) := by
      dsimp only
      rw [alookup_aset_self]
    have hid1 : idOk ({ s with
        cache := aset k (createNewItem o now k .null false) s.cache } : State) := by
      intro m it hm
      dsimp only at hm
      by_cases hmk : m = k
      · subst hmk
        rw [alookup_aset_self] at hm
        rw [← Option.some.inj hm, createNewItem_id]
      · rw [alookup_aset_ne (fun hh => hmk hh.symm)] at hm
        exact hid m it hm
    have hnc1 : notCorrupt ({ s with
        cache := aset k (createNewItem o now k .null false) s.cache } : State) := by
      intro c
      rw [storeOf_mkCache]
      exact hnc c
    have hall : ∀ j ∈ (({ s with
          cache := aset k (createNewItem o now k .null false) s.cache }
          : State)).cache.map Prod.fst,
        j ≠ "" ∧ (alookup j (({ s with
          cache := aset k (createNewItem o now k .null false) s.cache }
          : State)).cache).isSome = true := by
      intro j hj
      refine ⟨?_, alookup_isSome_of_mem_keys hj⟩
      intro hje
      subst hje
      dsimp only at hj
      rcases mem_keys_aset hj with h | h
      · exact hk h.symm
      · have h2 := alookup_isSome_of_mem_keys h
        rw [hempty] at h2
        simp at h2
    have hfr : ¬ (createNewItem o now k .null false).expires < now := by
      rw [createNewItem_expires]
      have h2 := calculateExpires_ge o now _ h0 (ite_ttl_nonneg o false h0 h1)
      omega
    obtain ⟨s2, vs, hrun, hin, hout⟩ := listGo_keeps o now k
      (createNewItem o now k .null false) hk
      (createNewItem_value o now k .null false) hfr
      ((({ s with cache := aset k (createNewItem o now k .null false) s.cache }
        : State)).cache.map Prod.fst) _ [] hall hid1 hnc1 hitk
    refine ⟨s2, vs, ?_, ?_⟩
    · unfold list
      exact hrun
    · apply hin
      exact mem_keys_of_alookup_isSome (by rw [hitk]; rfl)

/-- C10 witness: from the fresh engine, `get("a")` then `list()` yields an
object with `"a" ↦ null`. -/
theorem C10_get_then_list_includes_witness :
    alookup "a" ((get ⟨1000, 5000⟩ 0 "a" initState).1).cache =
      some (createNewItem ⟨1000, 5000⟩ 0 "a" .null false) ∧
    ∃ s2 vs, list ⟨1000, 5000⟩ 0 ((get ⟨1000, 5000⟩ 0 "a" initState).1) =
      (s2, .ok vs) ∧ alookup "a" vs = some .null :=
  C10_get_then_list_includes ⟨1000, 5000⟩ 0 "a" initState (by decide) rfl
    (Or.inl rfl) (fun m it hm => by simp [initState, alookup] at hm)
    (fun c => by cases c <;> simp [initState, storeOf]) rfl
    (by decide) (by decide)

end Fiji
